import Mathlib

/-!
Shallow embedding of the two source files of this repository core:
  - core/primitives/src/crypto/signature.rs  (public keys, secret keys,
    signatures, sign/verify, byte / string / protobuf conversions)
  - core/primitives/src/version.rs  (protocol version range, feature
    gating)

Machine bytes (u8) are modelled as Fin 256; byte slices as List Byte;
Rust Result with a boxed error is modelled as Except String.
-/

namespace NearPrimitives

/-- Machine byte, as in Rust u8. -/
abbrev Byte := Fin 256

/-- Constant sodiumoxide::crypto::sign::ed25519::PUBLICKEYBYTES. -/
def PUBLICKEYBYTES : Nat := 32

/-- Constant sodiumoxide::crypto::sign::ed25519::SECRETKEYBYTES. -/
def SECRETKEYBYTES : Nat := 64

/-- Constant sodiumoxide::crypto::sign::ed25519::SIGNATUREBYTES. -/
def SIGNATUREBYTES : Nat := 64

/-- Type PublicKey from signature.rs: a newtype over the sodiumoxide
ed25519 public key, which is a 32-byte array.  The sodiumoxide newtype
layer is collapsed: the wrapped value is the byte array itself. -/
structure PublicKey where
  bytes : List Byte
  size_eq : bytes.length = PUBLICKEYBYTES

/-- Type SecretKey from signature.rs: a newtype over the 64-byte
sodiumoxide ed25519 secret key. -/
structure SecretKey where
  bytes : List Byte
  size_eq : bytes.length = SECRETKEYBYTES

/-- Type Signature from signature.rs: a newtype over the 64-byte
sodiumoxide ed25519 signature. -/
structure Signature where
  bytes : List Byte
  size_eq : bytes.length = SIGNATUREBYTES

/-- Function PublicKey::empty from signature.rs: the public key whose 32
bytes are all zero. -/
def PublicKey.empty : PublicKey :=
  ⟨List.replicate PUBLICKEYBYTES 0, by simp⟩

/-- Impl TryFrom for PublicKey in signature.rs: reject any byte
slice whose length is not PUBLICKEYBYTES with a formatted message carrying
the actual length, the expected length and the bytes; otherwise copy the
bytes verbatim. -/
def PublicKey.tryFrom (bytes : List Byte) : Except String PublicKey :=
  if h : bytes.length = PUBLICKEYBYTES then
    .ok ⟨bytes, h⟩
  else
    .error ("bytes not the size " ++ toString bytes.length ++ " of a public key "
      ++ toString PUBLICKEYBYTES ++ ": " ++ toString (bytes.map Fin.val))

/-- Impl TryFrom for SecretKey in signature.rs: reject any byte
slice whose length is not SECRETKEYBYTES with a fixed message; otherwise
copy the bytes verbatim. -/
def SecretKey.tryFrom (bytes : List Byte) : Except String SecretKey :=
  if h : bytes.length = SECRETKEYBYTES then
    .ok ⟨bytes, h⟩
  else
    .error ("bytes not the size of a secret key")

/-- Impl TryFrom for Signature in signature.rs: reject any byte
slice whose length is not SIGNATUREBYTES with a fixed message; otherwise
copy the bytes verbatim. -/
def Signature.tryFrom (bytes : List Byte) : Except String Signature :=
  if h : bytes.length = SIGNATUREBYTES then
    .ok ⟨bytes, h⟩
  else
    .error ("bytes not the size of a signature")

/-- Impl AsRef for PublicKey in signature.rs: expose the raw bytes. -/
def PublicKey.as_ref (k : PublicKey) : List Byte := k.bytes

/-- Impl AsRef for SecretKey in signature.rs: expose the raw bytes. -/
def SecretKey.as_ref (k : SecretKey) : List Byte := k.bytes

/-- Impl AsRef for Signature in signature.rs: expose the raw bytes. -/
def Signature.as_ref (s : Signature) : List Byte := s.bytes

/-- Struct ProtocolVersionRange from version.rs. ProtocolVersion is u32;
the comparisons performed on it are numeric, so it is modelled as Nat. -/
structure ProtocolVersionRange where
  lower : Nat
  upper : Option Nat

/-- Function ProtocolVersionRange::new from version.rs. -/
def ProtocolVersionRange.new (lower : Nat) (upper : Option Nat) :
    ProtocolVersionRange :=
  ⟨lower, upper⟩

/-- Function ProtocolVersionRange::contains from version.rs:
lower <= version, and version < upper when an upper bound is present. -/
def ProtocolVersionRange.contains (r : ProtocolVersionRange)
    (version : Nat) : Bool :=
  decide (r.lower ≤ version) &&
    (match r.upper with
     | none => true
     | some upper => decide (version < upper))

/-- Modelled from the spec: the underlying elliptic-curve signing
algorithm (the external sodiumoxide ed25519 crate, not part of this
repository) is "treated as a trusted primitive providing sign, verify,
generate_keypair over fixed-size byte arrays".  It is modelled as a
bundle of those three operations; the randomness consumed by key
generation is made explicit as a seed argument. -/
structure Ed25519 where
  gen_keypair : Nat → PublicKey × SecretKey
  sign_detached : List Byte → SecretKey → Signature
  verify_detached : Signature → List Byte → PublicKey → Bool

/-- Modelled from the spec: the trusted primitive's contract, that a
detached signature made with a generated secret key verifies under the
matching public key. -/
def Ed25519.Correct (E : Ed25519) : Prop :=
  ∀ seed data,
    E.verify_detached (E.sign_detached data (E.gen_keypair seed).2) data
      (E.gen_keypair seed).1 = true

/-- Function sign from signature.rs: wrap the primitive's detached
signing. -/
def sign (E : Ed25519) (data : List Byte) (secret_key : SecretKey) :
    Signature :=
  E.sign_detached data secret_key

/-- Function verify from signature.rs: wrap the primitive's detached
verification. -/
def verify (E : Ed25519) (data : List Byte) (signature : Signature)
    (public_key : PublicKey) : Bool :=
  E.verify_detached signature data public_key

/-- Function get_key_pair from signature.rs: wrap the primitive's key
generation. -/
def get_key_pair (E : Ed25519) (seed : Nat) : PublicKey × SecretKey :=
  E.gen_keypair seed

/-- Toy instance of the trusted primitive, used only to show its
contract is satisfiable: verification always succeeds. -/
def toyEd25519 : Ed25519 where
  gen_keypair := fun _ =>
    (PublicKey.empty, ⟨List.replicate SECRETKEYBYTES 0, by simp⟩)
  sign_detached := fun _ _ => ⟨List.replicate SIGNATUREBYTES 0, by simp⟩
  verify_detached := fun _ _ _ => true

/-- Modelled from the spec: the base-encoding codec of crate::serialize
(to_base / from_base), whose source is not under src/; per the spec it is
"a reversible bytes↔string transform (base-58 or equivalent)". -/
structure BaseCodec where
  to_base : List Byte → String
  from_base : String → Except String (List Byte)

/-- Impl From for String in signature.rs (the canonical string
encoding of a PublicKey): to_base of the raw bytes. -/
def PublicKey.toCanonicalString (C : BaseCodec) (k : PublicKey) : String :=
  C.to_base k.bytes

/-- Impl From for String in signature.rs for SecretKey. -/
def SecretKey.toCanonicalString (C : BaseCodec) (k : SecretKey) : String :=
  C.to_base k.bytes

/-- Impl From for String in signature.rs for Signature. -/
def Signature.toCanonicalString (C : BaseCodec) (s : Signature) : String :=
  C.to_base s.bytes

/-- Impl TryFrom of a string for PublicKey in signature.rs: base-decode,
fail on a decode error, fail when the decoded length is not
PUBLICKEYBYTES, otherwise copy the decoded bytes verbatim. -/
def PublicKey.tryFromStr (C : BaseCodec) (s : String) :
    Except String PublicKey :=
  match C.from_base s with
  | .error e => .error ("Failed to convert public key from base58: " ++ e)
  | .ok bytes =>
    if h : bytes.length = PUBLICKEYBYTES then
      .ok ⟨bytes, h⟩
    else
      .error ("decoded " ++ s ++ " is not long enough for public key")

/-- Impl TryFrom of a string for SecretKey in signature.rs. -/
def SecretKey.tryFromStr (C : BaseCodec) (s : String) :
    Except String SecretKey :=
  match C.from_base s with
  | .error e => .error ("Failed to convert secret key from base58: " ++ e)
  | .ok bytes =>
    if h : bytes.length = SECRETKEYBYTES then
      .ok ⟨bytes, h⟩
    else
      .error ("decoded " ++ s ++ " is not long enough for secret key")

/-- Impl TryFrom of a string for Signature in signature.rs. -/
def Signature.tryFromStr (C : BaseCodec) (s : String) :
    Except String Signature :=
  match C.from_base s with
  | .error e => .error ("Failed to convert signature from base58: " ++ e)
  | .ok bytes =>
    if h : bytes.length = SIGNATUREBYTES then
      .ok ⟨bytes, h⟩
    else
      .error ("decoded " ++ s ++ " is not long enough for signature")

/-- Toy codec, used only to exhibit satisfiable codec hypotheses: a byte
list maps to that many letters, and a string decodes to that many zero
bytes.  It round-trips exactly on all-zero byte lists. -/
def toyCodec : BaseCodec where
  to_base := fun b => String.mk (List.replicate b.length 'a')
  from_base := fun s => .ok (List.replicate s.length 0)

/-- Modelled from the spec: the wire-schema message
near_protos::public_key::PublicKey, whose generated Rust source is not
under src/; per the spec it is "a structure with an explicit key-type tag
(currently one supported tag) and a raw-bytes field".  The tag is the
wire integer; ED25519 is the one supported tag. -/
structure ProtoPublicKey where
  key_type : Nat
  data : List Byte

/-- Wire value of the one supported key-type tag, ED25519. -/
def ED25519_TAG : Nat := 0

/-- Impl TryFrom of a proto message for PublicKey in signature.rs: the
conversion passes the data field to PublicKey::try_from and never reads
key_type (the source carries TODO number 979 noting the tag check is
deferred until key types other than ED25519 exist). -/
def PublicKey.tryFromProto (p : ProtoPublicKey) : Except String PublicKey :=
  PublicKey.tryFrom p.data

/-- Enum ProtocolFeature from version.rs.  Its one variant exists in the
Rust source only under the protocol_feature_forward_chunk_parts build
flag; the variant is always present here and the build flag is consulted
by the gate model below. -/
inductive ProtocolFeature where
  | ForwardChunkParts
deriving DecidableEq, BEq

/-- Build configuration: which cargo features the build enables.  In the
Rust source this is fixed at compile time; the gate is modelled as a
function of it. -/
structure BuildConfig where
  protocol_feature_forward_chunk_parts : Bool
  nightly_protocol : Bool

/-- Whether the cargo feature flag guarding a ProtocolFeature variant is
enabled in the build. -/
def featureFlagEnabled (cfg : BuildConfig) : ProtocolFeature → Bool
  | .ForwardChunkParts => cfg.protocol_feature_forward_chunk_parts

/-- Constant STABLE_PROTOCOL_FEATURES_TO_VERSION_MAPPING from version.rs:
the stable mapping is empty (its vec literal says "add mapping here"). -/
def STABLE_PROTOCOL_FEATURES_TO_VERSION_MAPPING :
    List (ProtocolFeature × Nat) := []

/-- Constant PROTOCOL_FEATURES_TO_VERSION_MAPPING from version.rs: under
nightly_protocol it maps ForwardChunkParts to 42; otherwise it is a clone
of the stable (empty) mapping. -/
def PROTOCOL_FEATURES_TO_VERSION_MAPPING (cfg : BuildConfig) :
    List (ProtocolFeature × Nat) :=
  if cfg.nightly_protocol then
    [(ProtocolFeature.ForwardChunkParts, 42)]
  else
    STABLE_PROTOCOL_FEATURES_TO_VERSION_MAPPING

/-- Macro checked_feature from version.rs, boolean form.  When the
feature's build flag is off the gate is the constant false.  When the
flag is on, the gate indexes the mapping with the feature and compares
the activation version against the current protocol version; indexing a
Rust HashMap with a missing key panics, modelled as none. -/
def checked_feature (cfg : BuildConfig) (feature : ProtocolFeature)
    (current_protocol_version : Nat) : Option Bool :=
  if featureFlagEnabled cfg feature then
    match (PROTOCOL_FEATURES_TO_VERSION_MAPPING cfg).lookup feature with
    | some activation => some (decide (activation ≤ current_protocol_version))
    | none => none
  else
    some false

/-- Comparison of one byte, as Rust derives Ord for u8 (numeric). -/
def cmpByte (x y : Byte) : Ordering :=
  if x < y then .lt else if x = y then .eq else .gt

/-- Comparison of byte sequences, as Rust derives Ord for byte arrays:
lexicographic, first differing byte decides. -/
def cmpBytes : List Byte → List Byte → Ordering
  | [], [] => .eq
  | [], _ :: _ => .lt
  | _ :: _, [] => .gt
  | x :: xs, y :: ys =>
    match cmpByte x y with
    | .eq => cmpBytes xs ys
    | o => o

/-- Derived Ord for PublicKey in signature.rs: compare the raw bytes. -/
def PublicKey.cmp (a b : PublicKey) : Ordering :=
  cmpBytes a.bytes b.bytes

/-- Derived PartialOrd strict order for PublicKey. -/
def PublicKey.lt (a b : PublicKey) : Prop :=
  PublicKey.cmp a b = .lt

instance (a b : PublicKey) : Decidable (PublicKey.lt a b) := by
  unfold PublicKey.lt; infer_instance

/-- Impl Hash for PublicKey in signature.rs: the hasher state receives
exactly the raw bytes (state.write(self.as_ref())). -/
def PublicKey.hashInput (k : PublicKey) : List Byte :=
  k.as_ref

/-- Whether an error message carries a pair of lengths: the decimal
rendering of each occurs in the message. -/
def carriesLengths (msg : String) (expected actual : Nat) : Prop :=
  (toString expected).data <:+: msg.data ∧ (toString actual).data <:+: msg.data

instance (msg : String) (expected actual : Nat) :
    Decidable (carriesLengths msg expected actual) := by
  unfold carriesLengths; infer_instance

/-- Constant DEFAULT_SIGNATURE from signature.rs: the all-zero signature
sentinel. -/
def DEFAULT_SIGNATURE : Signature :=
  ⟨List.replicate SIGNATUREBYTES 0, by simp⟩

/-- Sample all-zero secret key, for concrete instantiations. -/
def sampleSecretKey : SecretKey :=
  ⟨List.replicate SECRETKEYBYTES 0, by simp⟩

/-- Sample public key whose last byte is 1, for concrete instantiations. -/
def samplePk1 : PublicKey :=
  ⟨List.replicate 31 0 ++ [1], by decide⟩

/-- Sample public key whose last byte is 2, for concrete instantiations. -/
def samplePk2 : PublicKey :=
  ⟨List.replicate 31 0 ++ [2], by decide⟩

/-! Helper lemmas. -/

theorem publicKey_eq_of_bytes {a b : PublicKey} (h : a.bytes = b.bytes) :
    a = b := by
  cases a; cases b; cases h; rfl

theorem cmpByte_lt_iff {x y : Byte} : cmpByte x y = .lt ↔ x < y := by
  unfold cmpByte
  split_ifs with h1 h2 <;> simp [h1]

theorem cmpByte_eq_iff {x y : Byte} : cmpByte x y = .eq ↔ x = y := by
  unfold cmpByte
  split_ifs with h1 h2
  · simp [ne_of_lt h1]
  · simp [h2]
  · simp [h2]

theorem cmpByte_gt_iff {x y : Byte} : cmpByte x y = .gt ↔ y < x := by
  unfold cmpByte
  split_ifs with h1 h2
  · simp [asymm h1]
  · simp [h2]
  · have h3 : y < x := (not_lt.mp h1).lt_of_ne (fun e => h2 e.symm)
    simp [h3]

theorem cmpBytes_cons (x y : Byte) (xs ys : List Byte) :
    cmpBytes (x :: xs) (y :: ys) =
      match cmpByte x y with
      | .eq => cmpBytes xs ys
      | o => o :=
  rfl

theorem cmpBytes_cons_lt_iff {x y : Byte} {xs ys : List Byte} :
    cmpBytes (x :: xs) (y :: ys) = .lt ↔
      x < y ∨ (x = y ∧ cmpBytes xs ys = .lt) := by
  rw [cmpBytes_cons]
  rcases lt_trichotomy x y with h | h | h
  · rw [cmpByte_lt_iff.mpr h]
    simp [h]
  · subst h
    rw [cmpByte_eq_iff.mpr rfl]
    simp
  · rw [cmpByte_gt_iff.mpr h]
    simp [asymm h, h.ne.symm]

theorem cmpBytes_eq_iff : ∀ {xs ys : List Byte}, cmpBytes xs ys = .eq ↔ xs = ys
  | [], [] => by simp [cmpBytes]
  | [], _ :: _ => by simp [cmpBytes]
  | _ :: _, [] => by simp [cmpBytes]
  | x :: xs, y :: ys => by
    rw [cmpBytes_cons]
    rcases lt_trichotomy x y with h | h | h
    · rw [cmpByte_lt_iff.mpr h]
      simp [ne_of_lt h]
    · subst h
      rw [cmpByte_eq_iff.mpr rfl]
      simpa using @cmpBytes_eq_iff xs ys
    · rw [cmpByte_gt_iff.mpr h]
      simp [h.ne.symm]

theorem cmpBytes_swap : ∀ xs ys : List Byte,
    cmpBytes ys xs = (cmpBytes xs ys).swap
  | [], [] => rfl
  | [], _ :: _ => rfl
  | _ :: _, [] => rfl
  | x :: xs, y :: ys => by
    have ih := cmpBytes_swap xs ys
    rw [cmpBytes_cons, cmpBytes_cons]
    rcases lt_trichotomy x y with h | h | h
    · rw [cmpByte_lt_iff.mpr h, cmpByte_gt_iff.mpr h]; rfl
    · subst h
      rw [cmpByte_eq_iff.mpr rfl]
      simpa using ih
    · rw [cmpByte_gt_iff.mpr h, cmpByte_lt_iff.mpr h]; rfl

theorem cmpBytes_trans : ∀ {xs ys zs : List Byte},
    cmpBytes xs ys = .lt → cmpBytes ys zs = .lt → cmpBytes xs zs = .lt
  | [], [], _, h1, _ => by simp [cmpBytes] at h1
  | [], _ :: _, [], _, h2 => by simp [cmpBytes] at h2
  | [], _ :: _, _ :: _, _, _ => rfl
  | _ :: _, [], _, h1, _ => by simp [cmpBytes] at h1
  | _ :: _, _ :: _, [], _, h2 => by simp [cmpBytes] at h2
  | x :: xs, y :: ys, z :: zs, h1, h2 => by
    rw [cmpBytes_cons_lt_iff] at h1 h2 ⊢
    rcases h1 with h1 | ⟨h1e, h1r⟩ <;> rcases h2 with h2 | ⟨h2e, h2r⟩
    · exact Or.inl (lt_trans h1 h2)
    · exact Or.inl (h2e ▸ h1)
    · exact Or.inl (h1e ▸ h2)
    · exact Or.inr ⟨h1e.trans h2e, cmpBytes_trans h1r h2r⟩

theorem cmpBytes_lt_iff_lex : ∀ {xs ys : List Byte},
    cmpBytes xs ys = .lt ↔ List.Lex (fun a b : Byte => a < b) xs ys
  | [], [] => by
    simp [cmpBytes]
  | [], _ :: _ => by
    simp [cmpBytes]
    exact List.Lex.nil
  | _ :: _, [] => by
    simp [cmpBytes]
  | x :: xs, y :: ys => by
    rw [cmpBytes_cons_lt_iff]
    constructor
    · rintro (h | ⟨rfl, h⟩)
      · exact List.Lex.rel h
      · exact List.Lex.cons ((@cmpBytes_lt_iff_lex xs ys).mp h)
    · intro h
      cases h with
      | cons h => exact Or.inr ⟨rfl, (@cmpBytes_lt_iff_lex xs ys).mpr h⟩
      | rel h => exact Or.inl h

/-! Claim theorems. -/

/-- C1: for every byte payload m and every key pair (pk, sk) produced by
get_key_pair, verify(m, sign(m, sk), pk) returns true, the underlying
ed25519 primitive being trusted to satisfy its sign/verify contract. -/
theorem sign_verify_correct (E : Ed25519) (hE : E.Correct) (seed : Nat)
    (m : List Byte) :
    verify E m (sign E m (get_key_pair E seed).2) (get_key_pair E seed).1
      = true :=
  hE seed m

/-- Witness for C1 at the toy primitive, seed 0 and the empty payload. -/
theorem sign_verify_correct_witness :
    toyEd25519.Correct ∧
    verify toyEd25519 [] (sign toyEd25519 [] (get_key_pair toyEd25519 0).2)
      (get_key_pair toyEd25519 0).1 = true :=
  ⟨fun _ _ => rfl, sign_verify_correct toyEd25519 (fun _ _ => rfl) 0 []⟩

/-- C2: contains(v) is true iff lower ≤ v and (upper is absent or
v < upper); in particular new(5, some 10) contains exactly 5 ≤ v < 10,
and a range with no upper bound contains every v ≥ lower. -/
theorem protocolVersionRange_contains_spec :
    (∀ (lower : Nat) (upper : Option Nat) (v : Nat),
      (ProtocolVersionRange.new lower upper).contains v = true ↔
        lower ≤ v ∧ (upper = none ∨ ∃ u, upper = some u ∧ v < u)) ∧
    (∀ v : Nat,
      (ProtocolVersionRange.new 5 (some 10)).contains v = true ↔
        5 ≤ v ∧ v < 10) ∧
    (∀ (lower v : Nat),
      (ProtocolVersionRange.new lower none).contains v = true ↔
        lower ≤ v) := by
  refine ⟨?_, ?_, ?_⟩
  · intro lower upper v
    cases upper <;>
      simp [ProtocolVersionRange.new, ProtocolVersionRange.contains]
  · intro v
    simp [ProtocolVersionRange.new, ProtocolVersionRange.contains]
  · intro lower v
    simp [ProtocolVersionRange.new, ProtocolVersionRange.contains]

/-- C3: each of the three byte conversions fails exactly when the input
length differs from the type's fixed size (32, 64, 64), and on an
exact-length input succeeds with the bytes copied verbatim. -/
theorem tryFrom_size_validation :
    (∀ b : List Byte,
      ((∃ e, PublicKey.tryFrom b = .error e) ↔ b.length ≠ PUBLICKEYBYTES) ∧
      (b.length = PUBLICKEYBYTES →
        ∃ k, PublicKey.tryFrom b = .ok k ∧ k.bytes = b)) ∧
    (∀ b : List Byte,
      ((∃ e, SecretKey.tryFrom b = .error e) ↔ b.length ≠ SECRETKEYBYTES) ∧
      (b.length = SECRETKEYBYTES →
        ∃ k, SecretKey.tryFrom b = .ok k ∧ k.bytes = b)) ∧
    (∀ b : List Byte,
      ((∃ e, Signature.tryFrom b = .error e) ↔ b.length ≠ SIGNATUREBYTES) ∧
      (b.length = SIGNATUREBYTES →
        ∃ s, Signature.tryFrom b = .ok s ∧ s.bytes = b)) := by
  refine ⟨fun b => ⟨?_, ?_⟩, fun b => ⟨?_, ?_⟩, fun b => ⟨?_, ?_⟩⟩
  · unfold PublicKey.tryFrom
    split_ifs with h <;> simp [h]
  · intro h
    exact ⟨⟨b, h⟩, by unfold PublicKey.tryFrom; rw [dif_pos h], rfl⟩
  · unfold SecretKey.tryFrom
    split_ifs with h <;> simp [h]
  · intro h
    exact ⟨⟨b, h⟩, by unfold SecretKey.tryFrom; rw [dif_pos h], rfl⟩
  · unfold Signature.tryFrom
    split_ifs with h <;> simp [h]
  · intro h
    exact ⟨⟨b, h⟩, by unfold Signature.tryFrom; rw [dif_pos h], rfl⟩

/-- Witness for C3: a 32-byte buffer makes a public key verbatim, and an
empty buffer is rejected as a secret key. -/
theorem tryFrom_size_validation_witness :
    (∃ k, PublicKey.tryFrom (List.replicate 32 0) = .ok k ∧
      k.bytes = List.replicate 32 0) ∧
    (∃ e, SecretKey.tryFrom [] = .error e) :=
  ⟨(tryFrom_size_validation.1 (List.replicate 32 0)).2 (by decide),
   (tryFrom_size_validation.2.1 []).1.mpr (by decide)⟩

/-- C6: reconstructing each of the three types from its raw bytes
round-trips: try_from(x.as_ref()) is Ok(x). -/
theorem tryFrom_as_ref_roundtrip :
    (∀ k : PublicKey, PublicKey.tryFrom k.as_ref = .ok k) ∧
    (∀ k : SecretKey, SecretKey.tryFrom k.as_ref = .ok k) ∧
    (∀ s : Signature, Signature.tryFrom s.as_ref = .ok s) := by
  refine ⟨fun k => ?_, fun k => ?_, fun s => ?_⟩
  · unfold PublicKey.tryFrom PublicKey.as_ref
    rw [dif_pos k.size_eq]
  · unfold SecretKey.tryFrom SecretKey.as_ref
    rw [dif_pos k.size_eq]
  · unfold Signature.tryFrom Signature.as_ref
    rw [dif_pos s.size_eq]

/-- C10: PublicKey::empty is the public key whose 32 bytes are all zero,
and it equals the result of try_from on a 32-byte all-zero buffer. -/
theorem publicKey_empty_spec :
    PublicKey.empty.bytes = List.replicate PUBLICKEYBYTES 0 ∧
    PublicKey.tryFrom (List.replicate PUBLICKEYBYTES 0)
      = .ok PublicKey.empty :=
  ⟨rfl, rfl⟩

/-- C4 is refuted: a wire message whose key_type tag is not the ED25519
tag but whose data field has exactly 32 bytes is accepted, not
rejected. -/
theorem proto_decode_counterexample :
    (1 : Nat) ≠ ED25519_TAG ∧
    PublicKey.tryFromProto ⟨1, List.replicate 32 0⟩
      = .ok PublicKey.empty :=
  ⟨by decide, rfl⟩

/-- C4 (amended): decoding a PublicKey from the wire message never reads
key_type — for every tag the result is PublicKey::try_from of the data
field, so the tag is ignored rather than validated. -/
theorem proto_decode_ignores_key_type (t : Nat) (d : List Byte) :
    PublicKey.tryFromProto ⟨t, d⟩ = PublicKey.tryFrom d :=
  rfl

/-- C5 is refuted: in a build that enables the feature's flag without
nightly_protocol, the feature is absent from the mapping and the gate
panics on the map indexing (modelled as none) rather than resolving to
inactive (some false). -/
theorem checked_feature_counterexample :
    checked_feature ⟨true, false⟩ ProtocolFeature.ForwardChunkParts 100
      = none ∧
    checked_feature ⟨true, false⟩ ProtocolFeature.ForwardChunkParts 100
      ≠ some false :=
  ⟨by decide, by decide⟩

/-- C5 (amended): the gate is deterministic in the version; a disabled
build flag yields false for every version; an enabled flag yields the
comparison activation ≤ v when the feature is in the mapping, and the
map-indexing panic (none) when it is absent. -/
theorem checked_feature_spec :
    (∀ (cfg : BuildConfig) (f : ProtocolFeature) (v : Nat),
      checked_feature cfg f v = checked_feature cfg f v) ∧
    (∀ (cfg : BuildConfig) (f : ProtocolFeature) (v : Nat),
      featureFlagEnabled cfg f = false →
      checked_feature cfg f v = some false) ∧
    (∀ (cfg : BuildConfig) (f : ProtocolFeature) (v a : Nat),
      featureFlagEnabled cfg f = true →
      (PROTOCOL_FEATURES_TO_VERSION_MAPPING cfg).lookup f = some a →
      checked_feature cfg f v = some (decide (a ≤ v))) ∧
    (∀ (cfg : BuildConfig) (f : ProtocolFeature) (v : Nat),
      featureFlagEnabled cfg f = true →
      (PROTOCOL_FEATURES_TO_VERSION_MAPPING cfg).lookup f = none →
      checked_feature cfg f v = none) := by
  refine ⟨fun _ _ _ => rfl, ?_, ?_, ?_⟩
  · intro cfg f v h
    unfold checked_feature
    rw [h]
    rfl
  · intro cfg f v a h hl
    unfold checked_feature
    rw [h, if_pos rfl, hl]
  · intro cfg f v h hl
    unfold checked_feature
    rw [h, if_pos rfl, hl]

/-- Witness for C5 at the three reachable gate outcomes: flag off, flag
on with the nightly mapping, flag on with the stable mapping. -/
theorem checked_feature_spec_witness :
    checked_feature ⟨false, true⟩ ProtocolFeature.ForwardChunkParts 50
      = some false ∧
    checked_feature ⟨true, true⟩ ProtocolFeature.ForwardChunkParts 50
      = some true ∧
    checked_feature ⟨true, false⟩ ProtocolFeature.ForwardChunkParts 50
      = none :=
  ⟨checked_feature_spec.2.1 ⟨false, true⟩ ProtocolFeature.ForwardChunkParts
      50 (by decide),
   checked_feature_spec.2.2.1 ⟨true, true⟩ ProtocolFeature.ForwardChunkParts
      50 42 (by decide) (by decide),
   checked_feature_spec.2.2.2 ⟨true, false⟩ ProtocolFeature.ForwardChunkParts
      50 (by decide) (by decide)⟩

/-- C7: encoding to the canonical base-58 string and decoding back
yields the value, for each of the three types, given that the codec
inverts its encoding on the value's bytes. -/
theorem canonical_string_roundtrip (C : BaseCodec) :
    (∀ k : PublicKey, C.from_base (C.to_base k.bytes) = .ok k.bytes →
      PublicKey.tryFromStr C (PublicKey.toCanonicalString C k) = .ok k) ∧
    (∀ k : SecretKey, C.from_base (C.to_base k.bytes) = .ok k.bytes →
      SecretKey.tryFromStr C (SecretKey.toCanonicalString C k) = .ok k) ∧
    (∀ s : Signature, C.from_base (C.to_base s.bytes) = .ok s.bytes →
      Signature.tryFromStr C (Signature.toCanonicalString C s) = .ok s) := by
  refine ⟨fun k h => ?_, fun k h => ?_, fun s h => ?_⟩
  · unfold PublicKey.tryFromStr PublicKey.toCanonicalString
    rw [h]
    exact dif_pos k.size_eq
  · unfold SecretKey.tryFromStr SecretKey.toCanonicalString
    rw [h]
    exact dif_pos k.size_eq
  · unfold Signature.tryFromStr Signature.toCanonicalString
    rw [h]
    exact dif_pos s.size_eq

/-- Witness for C7 at the toy codec and the all-zero values of each
type. -/
theorem canonical_string_roundtrip_witness :
    PublicKey.tryFromStr toyCodec
      (PublicKey.toCanonicalString toyCodec PublicKey.empty)
      = .ok PublicKey.empty ∧
    SecretKey.tryFromStr toyCodec
      (SecretKey.toCanonicalString toyCodec sampleSecretKey)
      = .ok sampleSecretKey ∧
    Signature.tryFromStr toyCodec
      (Signature.toCanonicalString toyCodec DEFAULT_SIGNATURE)
      = .ok DEFAULT_SIGNATURE :=
  ⟨(canonical_string_roundtrip toyCodec).1 PublicKey.empty rfl,
   (canonical_string_roundtrip toyCodec).2.1 sampleSecretKey rfl,
   (canonical_string_roundtrip toyCodec).2.2 DEFAULT_SIGNATURE rfl⟩

/-- C8: PublicKey equality is raw-byte equality; the derived strict
order is transitive, antisymmetric and total, and coincides with
byte-lexicographic comparison of the raw bytes; hashing writes exactly
the raw bytes, so equal keys hash equal. -/
theorem publicKey_order_spec :
    (∀ a b : PublicKey, a = b ↔ a.bytes = b.bytes) ∧
    (∀ a b c : PublicKey,
      PublicKey.lt a b → PublicKey.lt b c → PublicKey.lt a c) ∧
    (∀ a b : PublicKey, PublicKey.lt a b → PublicKey.lt b a → False) ∧
    (∀ a b : PublicKey, PublicKey.lt a b ∨ a = b ∨ PublicKey.lt b a) ∧
    (∀ a b : PublicKey,
      PublicKey.lt a b ↔ List.Lex (fun x y : Byte => x < y) a.bytes b.bytes) ∧
    (∀ a : PublicKey, a.hashInput = a.bytes) ∧
    (∀ a b : PublicKey, a = b → a.hashInput = b.hashInput) := by
  refine ⟨?_, ?_, ?_, ?_, ?_, fun a => rfl, fun a b h => h ▸ rfl⟩
  · intro a b
    exact ⟨fun h => h ▸ rfl, publicKey_eq_of_bytes⟩
  · intro a b c h1 h2
    exact cmpBytes_trans h1 h2
  · intro a b h1 h2
    rw [PublicKey.lt, PublicKey.cmp] at h1 h2
    rw [cmpBytes_swap a.bytes b.bytes, h1] at h2
    exact absurd h2 (by decide)
  · intro a b
    cases h : cmpBytes a.bytes b.bytes with
    | lt => exact Or.inl h
    | eq => exact Or.inr (Or.inl (publicKey_eq_of_bytes (cmpBytes_eq_iff.mp h)))
    | gt =>
      refine Or.inr (Or.inr ?_)
      have hs := cmpBytes_swap a.bytes b.bytes
      rw [h] at hs
      exact hs
  · intro a b
    exact cmpBytes_lt_iff_lex

/-- Witness for C8: transitivity applied at three concrete keys that
differ in their last byte. -/
theorem publicKey_order_witness :
    PublicKey.lt PublicKey.empty samplePk2 :=
  publicKey_order_spec.2.1 PublicKey.empty samplePk1 samplePk2
    (by decide) (by decide)

/-- C9 is refuted: the size-mismatch error of SecretKey::try_from on a
3-byte input is a fixed message carrying neither the expected length 64
nor the actual length 3. -/
theorem sizeMismatch_error_counterexample :
    SecretKey.tryFrom (List.replicate 3 0)
      = .error ("bytes not the size of a secret key") ∧
    ¬ carriesLengths "bytes not the size of a secret key"
      SECRETKEYBYTES 3 :=
  ⟨rfl, by decide⟩

/-- C9 (amended): only PublicKey::try_from's size-mismatch error carries
the expected and actual lengths; SecretKey::try_from and
Signature::try_from return fixed messages carrying neither. -/
theorem sizeMismatch_error_contents :
    (∀ b : List Byte, b.length ≠ PUBLICKEYBYTES →
      ∃ e, PublicKey.tryFrom b = .error e ∧
        carriesLengths e PUBLICKEYBYTES b.length) ∧
    (∀ b : List Byte, b.length ≠ SECRETKEYBYTES →
      SecretKey.tryFrom b = .error ("bytes not the size of a secret key")) ∧
    (∀ b : List Byte, b.length ≠ SIGNATUREBYTES →
      Signature.tryFrom b = .error ("bytes not the size of a signature")) := by
  refine ⟨?_, ?_, ?_⟩
  · intro b h
    refine ⟨_, by unfold PublicKey.tryFrom; rw [dif_neg h], ?_, ?_⟩
    · refine ⟨("bytes not the size " ++ toString b.length
          ++ " of a public key ").data,
        (": " ++ toString (b.map Fin.val)).data, ?_⟩
      simp [List.append_assoc]
    · refine ⟨("bytes not the size ").data,
        (" of a public key " ++ toString PUBLICKEYBYTES ++ ": "
          ++ toString (b.map Fin.val)).data, ?_⟩
      simp [List.append_assoc]
  · intro b h
    unfold SecretKey.tryFrom
    rw [dif_neg h]
  · intro b h
    unfold Signature.tryFrom
    rw [dif_neg h]

/-- Witness for C9: a 3-byte buffer yields a public-key error carrying
the lengths 32 and 3, and an empty buffer yields the fixed secret-key
message. -/
theorem sizeMismatch_error_contents_witness :
    (∃ e, PublicKey.tryFrom (List.replicate 3 0) = .error e ∧
      carriesLengths e PUBLICKEYBYTES 3) ∧
    SecretKey.tryFrom []
      = .error ("bytes not the size of a secret key") :=
  ⟨sizeMismatch_error_contents.1 (List.replicate 3 0) (by decide),
   sizeMismatch_error_contents.2.1 [] (by decide)⟩

end NearPrimitives
